import Mathlib

/-!
Shallow embedding of the shark-behavior inference pipeline
(`preprocess_data.py`, `FInalModel.py`, `export_foraging_areas.py`)
and proofs about its spec claims.

Numbers that the Python code handles as floats are modelled over a
linear ordered field `α` (instantiated at `ℚ` for executable tests and
at `ℝ` where the code uses transcendental functions).  Timestamps are
modelled as natural numbers of minutes.
-/

variable {α : Type} [LinearOrderedField α]

/-- Embedding of `np.clip(x, lo, hi)`: clamp `x` into `[lo, hi]`. -/
def clip (x lo hi : α) : α := min (max x lo) hi

/-- Arithmetic mean of a list, as used by pandas `mean` aggregation
(empty list yields `0/0 = 0`, but every caller passes a nonempty list). -/
def listMean (xs : List α) : α := xs.sum / (xs.length : α)

/-- Round to the nearest integer, ties to even — the rounding used by
numpy/pandas `round`. -/
def roundHalfEven [FloorRing α] (x : α) : ℤ :=
  let f := Int.floor x
  let r := x - (f : α)
  if r < 1 / 2 then f
  else if 1 / 2 < r then f + 1
  else if f % 2 = 0 then f else f + 1

/-- Embedding of pandas `Series.round(d)`: round to `d` decimal places,
ties to even. -/
def roundTo [FloorRing α] (d : ℕ) (x : α) : α :=
  (roundHalfEven (x * (10 : α) ^ d) : α) / (10 : α) ^ d

theorem clip_mem_Icc (x lo hi : α) (h : lo ≤ hi) :
    lo ≤ clip x lo hi ∧ clip x lo hi ≤ hi := by
  unfold clip
  constructor
  · exact le_min (le_max_right x lo) h
  · exact min_le_right _ _

/-! ## Constraint filter (`apply_smart_biological_constraints`) -/

/-- One row of the preprocessed feature table
(`preprocessed_shark_pace_data.csv` as loaded by `load_preprocessed_data`). -/
structure FRow (α : Type) where
  shark_id : ℕ
  latitude : α
  longitude : α
  datetime : ℕ
  pace_date : ℕ
  original_datetime : ℕ
  step_length : α
  turning_angle : α
  speed_km_day : α
  chlor_a : α
  carbon_phyto : α
  poc : α
  sst : α
  water_depth : α
  eddy_speed : α
deriving DecidableEq

/-- A feature row after the constraint filter: same columns plus the two
advisory tag columns added by `apply_smart_biological_constraints`. -/
structure CRow (α : Type) extends FRow α where
  speed_category : String
  data_quality : String
deriving DecidableEq

/-- `MAX_BURST_SPEED = 74 * 24` km/day. -/
def MAX_BURST_SPEED : α := 74 * 24

/-- `MAX_SUSTAINED_SPEED = 20 * 24` km/day. -/
def MAX_SUSTAINED_SPEED : α := 20 * 24

/-- `TYPICAL_MAX_SPEED = 10 * 24` km/day. -/
def TYPICAL_MAX_SPEED : α := 10 * 24

/-- Per-row body of `apply_smart_biological_constraints`:
clip the speed into `[0, MAX_BURST_SPEED]`; when the clipped speed sits
exactly at `MAX_BURST_SPEED` (and the table has a `datetime` column) cap
the step length at `(MAX_BURST_SPEED / 24) * 12`; then assign the
`speed_category` tag (`normal` overwritten by `high`, `very_high`,
`capped` in that order) and the `data_quality` tag from the step-length
thresholds 200 km / 500 km. -/
def constrainRow (hasDatetime : Bool) (r : FRow α) : CRow α :=
  let s := clip r.speed_km_day 0 MAX_BURST_SPEED
  let step :=
    if s = MAX_BURST_SPEED ∧ hasDatetime then
      min r.step_length ((MAX_BURST_SPEED / 24) * 12)
    else r.step_length
  { r with
    speed_km_day := s
    step_length := step
    speed_category :=
      if s = MAX_BURST_SPEED then "capped"
      else if MAX_SUSTAINED_SPEED < s then "very_high"
      else if TYPICAL_MAX_SPEED < s then "high"
      else "normal"
    data_quality :=
      if (500 : α) < step then "poor"
      else if (200 : α) < step then "suspicious"
      else "good" }

/-- Embedding of `apply_smart_biological_constraints`: the per-row
transformation applied to every row of the table (no row is added or
removed; the pandas implementation is a sequence of row-aligned column
assignments). -/
def apply_smart_biological_constraints (hasDatetime : Bool)
    (df : List (FRow α)) : List (CRow α) :=
  df.map (constrainRow hasDatetime)

/-- The columns `apply_smart_biological_constraints` never touches. -/
def preservedFields (r : FRow α) :
    ℕ × α × α × ℕ × ℕ × ℕ × α × α × α × α × α × α × α :=
  (r.shark_id, r.latitude, r.longitude, r.datetime, r.pace_date,
   r.original_datetime, r.turning_angle, r.chlor_a, r.carbon_phyto,
   r.poc, r.sst, r.water_depth, r.eddy_speed)

/-- C5: for every input row the constrained `speed_km_day` lies in
`[0, 1776]` (`MAX_BURST_SPEED = 74 * 24`); an input speed of 3000 km/day
is clamped to exactly 1776 and tagged `capped`; every row whose output
speed equals 1776 is tagged `capped`, and rows below the `10*24` and
`20*24` thresholds are tagged `normal` / `high` / `very_high`. -/
theorem C5_constraint_clamp (r : FRow ℚ) (hdt : Bool) :
    (0 ≤ (constrainRow hdt r).speed_km_day ∧ (constrainRow hdt r).speed_km_day ≤ 1776) ∧
    (r.speed_km_day = 3000 →
      (constrainRow hdt r).speed_km_day = 1776 ∧ (constrainRow hdt r).speed_category = "capped") ∧
    ((constrainRow hdt r).speed_km_day = 1776 → (constrainRow hdt r).speed_category = "capped") ∧
    ((constrainRow hdt r).speed_km_day ≤ 240 → (constrainRow hdt r).speed_category = "normal") ∧
    (240 < (constrainRow hdt r).speed_km_day → (constrainRow hdt r).speed_km_day ≤ 480 →
      (constrainRow hdt r).speed_category = "high") ∧
    (480 < (constrainRow hdt r).speed_km_day → (constrainRow hdt r).speed_km_day < 1776 →
      (constrainRow hdt r).speed_category = "very_high") := by
  have h1776 : (MAX_BURST_SPEED : ℚ) = 1776 := by norm_num [MAX_BURST_SPEED]
  have hb := clip_mem_Icc r.speed_km_day (0 : ℚ) MAX_BURST_SPEED (by rw [h1776]; norm_num)
  simp only [constrainRow]
  set s := clip r.speed_km_day 0 MAX_BURST_SPEED with hs
  refine ⟨⟨hb.1, h1776 ▸ hb.2⟩, ?_, ?_, ?_, ?_, ?_⟩
  · intro h3
    have : s = 1776 := by
      rw [hs, h3, h1776]
      norm_num [clip, min_def, max_def]
    simp [this, h1776]
  · intro h
    simp [h, h1776]
  · intro h
    have hne : ¬ s = MAX_BURST_SPEED := by rw [h1776]; intro he; rw [he] at h; norm_num at h
    have h2 : ¬ MAX_SUSTAINED_SPEED < s := by
      norm_num [MAX_SUSTAINED_SPEED]; linarith
    have h3 : ¬ TYPICAL_MAX_SPEED < s := by
      norm_num [TYPICAL_MAX_SPEED]; linarith
    simp [hne, h2, h3]
  · intro h1 h2
    have hne : ¬ s = MAX_BURST_SPEED := by rw [h1776]; intro he; rw [he] at h2; norm_num at h2
    have hh2 : ¬ MAX_SUSTAINED_SPEED < s := by norm_num [MAX_SUSTAINED_SPEED]; linarith
    have hh3 : TYPICAL_MAX_SPEED < s := by norm_num [TYPICAL_MAX_SPEED]; linarith
    simp [hne, hh2, hh3]
  · intro h1 h2
    have hne : ¬ s = MAX_BURST_SPEED := by rw [h1776]; intro he; rw [he] at h2; norm_num at h2
    have hh2 : MAX_SUSTAINED_SPEED < s := by norm_num [MAX_SUSTAINED_SPEED]; linarith
    simp [hne, hh2]

/-- A concrete feature row whose raw speed is 3000 km/day. -/
def speed3000Row : FRow ℚ :=
  { shark_id := 1, latitude := 10, longitude := 20, datetime := 0,
    pace_date := 0, original_datetime := 0, step_length := 100,
    turning_angle := 0, speed_km_day := 3000, chlor_a := 1,
    carbon_phyto := 40, poc := 100, sst := 25, water_depth := -1000,
    eddy_speed := 1 }

/-- C5 witness: the 3000 km/day row is clamped to 1776 and tagged `capped`. -/
theorem C5_constraint_clamp_witness :
    (constrainRow true speed3000Row).speed_km_day = 1776 ∧
    (constrainRow true speed3000Row).speed_category = "capped" :=
  (C5_constraint_clamp speed3000Row true).2.1 rfl

/-- C6: the constraint filter is non-destructive — the output table has
exactly as many rows as the input, in the same order, and every column
other than `speed_km_day` and `step_length` is unchanged row by row
(the tag columns `speed_category` and `data_quality` are new fields of
`CRow`, added on top of the preserved ones). -/
theorem C6_constraint_frame (hdt : Bool) (df : List (FRow ℚ)) :
    (apply_smart_biological_constraints hdt df).length = df.length ∧
    (apply_smart_biological_constraints hdt df).map
        (fun (c : CRow ℚ) => preservedFields c.toFRow)
      = df.map preservedFields ∧
    ∀ i : ℕ, ((apply_smart_biological_constraints hdt df)[i]?).map
        (fun (c : CRow ℚ) => preservedFields c.toFRow)
      = (df[i]?).map preservedFields := by
  refine ⟨List.length_map _ _, ?_, ?_⟩
  · rw [apply_smart_biological_constraints, List.map_map]
    rfl
  · intro i
    rw [apply_smart_biological_constraints, List.getElem?_map, Option.map_map]
    rfl

/-! ## Inference engine decode (`bayesian_hmm_mcmc`) -/

/-- Embedding of `df["state_uncertainty"] = 1 - np.max(state_probs, axis=1)`
for one observation of the two-state model. -/
def state_uncertainty (p0 p1 : α) : α := 1 - max p0 p1

/-- C10: for every observation, `state_uncertainty` equals one minus the
larger of the two per-state posterior probabilities, and since the two
posteriors are nonnegative and sum to one it lies in `[0, 1/2]`. -/
theorem C10_uncertainty_bound (p0 p1 : ℚ) (h0 : 0 ≤ p0) (h1 : 0 ≤ p1)
    (hsum : p0 + p1 = 1) :
    state_uncertainty p0 p1 = 1 - max p0 p1 ∧
    0 ≤ state_uncertainty p0 p1 ∧ state_uncertainty p0 p1 ≤ 1 / 2 := by
  refine ⟨rfl, ?_, ?_⟩
  · have hp0 : p0 ≤ 1 := by linarith
    have hp1 : p1 ≤ 1 := by linarith
    have : max p0 p1 ≤ 1 := max_le hp0 hp1
    simp only [state_uncertainty]
    linarith
  · have : 1 / 2 ≤ max p0 p1 := by
      rcases max_cases p0 p1 with ⟨he, hge⟩ | ⟨he, hlt⟩ <;> rw [he] <;> linarith
    simp only [state_uncertainty]
    linarith

/-- C10 witness at the uniform posterior `(1/2, 1/2)`. -/
theorem C10_uncertainty_bound_witness :
    state_uncertainty (1 / 2 : ℚ) (1 / 2) = 1 - max (1 / 2 : ℚ) (1 / 2) ∧
    0 ≤ state_uncertainty (1 / 2 : ℚ) (1 / 2) ∧
    state_uncertainty (1 / 2 : ℚ) (1 / 2) ≤ 1 / 2 :=
  C10_uncertainty_bound (1 / 2) (1 / 2) (by norm_num) (by norm_num) (by norm_num)

/-! ## Behavior labeling (`enhanced_train_hmm`) -/

/-- Mean `speed_km_day` of the observations assigned to state `s`
(pandas `groupby("predicted_state").agg({"speed_km_day": "mean"})`),
with an observation given as a `(predicted_state, speed_km_day)` pair. -/
def meanSpeedOfState (rows : List (ℕ × α)) (s : ℕ) : α :=
  listMean ((rows.filter (fun p => p.1 = s)).map Prod.snd)

/-- Embedding of `state_stats["speed_km_day"].idxmax()` for the two-state
model: the state with the larger mean speed, state 0 winning ties
(pandas `idxmax` returns the first index attaining the maximum, and the
groupby index is sorted ascending). -/
def high_speed_state (rows : List (ℕ × α)) : ℕ :=
  if meanSpeedOfState rows 0 < meanSpeedOfState rows 1 then 1 else 0

/-- Embedding of the `behavior_map` construction in `enhanced_train_hmm`:
when both states occur among the predictions (`len(state_stats) >= 2`;
the predicted states are always 0 or 1) the state with the larger mean
speed maps to `Migrating` and the other (`1 - high_speed_state`) to
`Foraging`; otherwise the hardcoded fallback `{0: Foraging, 1: Migrating}`
is used. -/
def behavior_map (rows : List (ℕ × α)) : ℕ → String :=
  if rows.any (fun p => p.1 = 0) ∧ rows.any (fun p => p.1 = 1) then
    fun s => if s = high_speed_state rows then "Migrating" else "Foraging"
  else
    fun s => if s = 0 then "Foraging" else "Migrating"

/-- C2: after a fit in which both states occur, the state whose
observations have the strictly higher mean speed is labeled `Migrating`
and the other `Foraging`, whichever numeric index the fitter gave it. -/
theorem C2_behavior_labeling (rows : List (ℕ × ℚ)) (a b : ℕ)
    (hab : (a = 0 ∧ b = 1) ∨ (a = 1 ∧ b = 0))
    (hp0 : rows.any (fun p => p.1 = 0) = true)
    (hp1 : rows.any (fun p => p.1 = 1) = true)
    (hgt : meanSpeedOfState rows b < meanSpeedOfState rows a) :
    behavior_map rows a = "Migrating" ∧ behavior_map rows b = "Foraging" := by
  have hcond : rows.any (fun p => p.1 = 0) ∧ rows.any (fun p => p.1 = 1) := by
    exact ⟨hp0, hp1⟩
  rcases hab with ⟨ha, hb⟩ | ⟨ha, hb⟩ <;> subst ha <;> subst hb
  · have hhs : high_speed_state rows = 0 := by
      simp only [high_speed_state, if_neg (not_lt.mpr (le_of_lt hgt))]
    constructor
    · simp [behavior_map, hcond, hhs]
    · simp [behavior_map, hcond, hhs]
  · have hhs : high_speed_state rows = 1 := by
      simp only [high_speed_state, if_pos hgt]
    constructor
    · simp [behavior_map, hcond, hhs]
    · simp [behavior_map, hcond, hhs]

/-- A two-cluster demo assignment: state 0 observations at mean speed 50,
state 1 observations at mean speed 500. -/
def demoAssign : List (ℕ × ℚ) := [(0, 40), (0, 60), (1, 400), (1, 600)]

/-- C2 witness: on `demoAssign` the faster state 1 is labeled `Migrating`
and state 0 `Foraging`. -/
theorem C2_behavior_labeling_witness :
    behavior_map demoAssign 1 = "Migrating" ∧ behavior_map demoAssign 0 = "Foraging" :=
  C2_behavior_labeling demoAssign 1 0 (Or.inr ⟨rfl, rfl⟩) (by decide) (by decide)
    (by norm_num [meanSpeedOfState, listMean, demoAssign])

/-! ## Geo/motion utilities and the feature builder (`preprocess_data.py`) -/

/-- Embedding of `np.deg2rad`. -/
noncomputable def deg2rad (x : ℝ) : ℝ := x * (Real.pi / 180)

/-- Haversine great-circle distance in km with Earth radius 6371, exactly
as written in `calculate_movement_features` (and repeated inside
`discretize_to_time_steps`). -/
noncomputable def haversine_km (lat1 lon1 lat2 lon2 : ℝ) : ℝ :=
  let R : ℝ := 6371
  let dlat := deg2rad (lat2 - lat1)
  let dlon := deg2rad (lon2 - lon1)
  let a := Real.sin (dlat / 2) ^ 2 +
    Real.cos (deg2rad lat1) * Real.cos (deg2rad lat2) * Real.sin (dlon / 2) ^ 2
  let c := 2 * Real.arcsin (Real.sqrt a)
  R * c

/-- Embedding of
`speed = (step_length / time_diff) * 24 if time_diff > 0 else 0`
from `calculate_movement_features` (`time_diff` in hours). -/
noncomputable def speed_from_step (step timeDiff : ℝ) : ℝ :=
  if 0 < timeDiff then step / timeDiff * 24 else 0

/-- C7: a degenerate step between identical coordinates has haversine
distance exactly 0 and derived speed 0, and the speed division is guarded:
for a non-positive elapsed time the speed is 0 (the division branch is
never taken). -/
theorem C7_degenerate_step_safety (lat1 lon1 lat2 lon2 td : ℝ)
    (hlat : lat1 = lat2) (hlon : lon1 = lon2) :
    haversine_km lat1 lon1 lat2 lon2 = 0 ∧
    speed_from_step (haversine_km lat1 lon1 lat2 lon2) td = 0 ∧
    (∀ s : ℝ, td ≤ 0 → speed_from_step s td = 0) := by
  subst hlat
  subst hlon
  have hhav : haversine_km lat1 lon1 lat1 lon1 = 0 := by
    simp [haversine_km, deg2rad]
  refine ⟨hhav, ?_, ?_⟩
  · rw [hhav]
    unfold speed_from_step
    split <;> simp
  · intro s hts
    unfold speed_from_step
    rw [if_neg (not_lt.mpr hts)]

/-- C7 witness: at the concrete coincident points (10, 20) the step is 0
and the speed is 0; at elapsed time −1 h the guard returns 0. -/
theorem C7_degenerate_step_safety_witness :
    haversine_km 10 20 10 20 = 0 ∧
    speed_from_step (haversine_km 10 20 10 20) (-1) = 0 ∧
    speed_from_step 5 (-1) = 0 := by
  have h := C7_degenerate_step_safety 10 20 10 20 (-1) rfl rfl
  exact ⟨h.1, h.2.1, h.2.2 5 (by norm_num)⟩

/-! ## Environmental fusion (`extract_pace_environmental_data`) -/

/-- One satellite composite as the fusion step consumes it: for each ocean
color variable, either the list of valid (non-NaN) values of the 2-D
array, or `none` when the file lacks the variable. -/
structure PaceEntry where
  chlor_a : Option (List ℝ)
  carbon_phyto : Option (List ℝ)
  poc : Option (List ℝ)

/-- Global SWOT statistics, as returned by `load_pace_data`. -/
structure EddyStats where
  mean_eddy_intensity : ℝ
  std_eddy_intensity : ℝ
  ssh_variability : ℝ

/-- The pseudo-random draws consumed by one call of
`extract_pace_environmental_data`: one standard-normal draw per ocean
color variable and for sst/depth/eddy jitter, plus one uniform draw for
the depth base. -/
structure EnvDraws where
  z_chlor : ℝ
  z_carbon : ℝ
  z_poc : ℝ
  z_sst : ℝ
  u_depth : ℝ
  z_depth : ℝ
  z_eddy : ℝ

/-- `np.nanmean(valid) if len(valid) > 0 else dflt`. -/
noncomputable def nanmeanOr (vals : List ℝ) (dflt : ℝ) : ℝ :=
  if vals = [] then dflt else listMean vals

/-- The returned environmental sample. -/
structure EnvData where
  chlor_a : ℝ
  carbon_phyto : ℝ
  poc : ℝ
  sst : ℝ
  water_depth : ℝ
  eddy_speed : ℝ

/-- Body of `extract_pace_environmental_data` once the composite date is
resolved: per-variable base (real composite mean, or synthetic constant
when the variable is absent), multiplied by latitude/longitude-dependent
adjustments, plus scaled Gaussian jitter, finally clamped to the
documented physically plausible range. -/
noncomputable def envFromEntry (lat lon : ℝ) (entry : PaceEntry)
    (eddy : EddyStats) (d : EnvDraws) : EnvData :=
  let chlor :=
    match entry.chlor_a with
    | some vals =>
      let base := nanmeanOr vals 0.3
      let lat_factor := 1.0 + 0.2 * Real.sin (deg2rad lat)
      let coastal_proximity := if |lat| < 30 ∧ |lon| < 60 then (1.2 : ℝ) else 0.9
      base * lat_factor * coastal_proximity + 0.05 * d.z_chlor
    | none => 0.3 + 0.1 * d.z_chlor
  let carbon :=
    match entry.carbon_phyto with
    | some vals =>
      let base := nanmeanOr vals 40.0
      let coastal_factor := if |lat| < 40 then (1.3 : ℝ) else 0.85
      let productivity_factor := if -60 < lat ∧ lat < 60 then (1.1 : ℝ) else 0.9
      base * coastal_factor * productivity_factor + 2.0 * d.z_carbon
    | none => 40.0 + 5.0 * d.z_carbon
  let poc :=
    match entry.poc with
    | some vals =>
      let base := nanmeanOr vals 100.0
      let seasonal_factor := 1.1 + 0.1 * Real.sin (deg2rad (lat * 2))
      base * seasonal_factor + 5.0 * d.z_poc
    | none => 100.0 + 10.0 * d.z_poc
  let sst := 26.0 + (-0.5 * |lat|) + 2.0 * Real.sin (deg2rad lat) + 1.5 * d.z_sst
  let base_depth :=
    if |lat| < 10 then -2500 + 1000 * d.u_depth
    else if |lat| < 30 then -3000 + 800 * d.u_depth
    else -2000 + 1500 * d.u_depth
  let coastal_adjustment := 1500 * Real.exp (-|lon| / 50)
  let depth := base_depth + coastal_adjustment + 300 * d.z_depth
  let base_eddy := eddy.mean_eddy_intensity * 0.2
  let latitude_eddy_factor := 1.0 + 0.3 * Real.sin (deg2rad (lat * 2))
  let ssh_variability_factor := min (eddy.ssh_variability / 0.1) 2.0
  let eddy_val := base_eddy * latitude_eddy_factor * ssh_variability_factor +
    eddy.std_eddy_intensity * 0.1 * d.z_eddy
  { chlor_a := clip chlor 0.05 5.0
    carbon_phyto := clip carbon 5 300
    poc := clip poc 20 500
    sst := clip sst 10 32
    water_depth := clip depth (-6000) (-10)
    eddy_speed := clip eddy_val 0 2.0 }

/-- Python `min(iterable, key=...)`: left fold keeping the first element
attaining the minimal key. -/
def pyMinKey (key : ℤ → ℤ) : ℤ → List ℤ → ℤ
  | acc, [] => acc
  | acc, x :: xs => pyMinKey key (if key x < key acc then x else acc) xs

/-- Embedding of `extract_pace_environmental_data`: resolve the composite
date (the requested date when present, otherwise the available date with
minimum absolute day difference) and compute the fused sample from the
selected composite. -/
noncomputable def extract_pace_environmental_data (lat lon : ℝ)
    (paceDate : ℤ) (paceData : List (ℤ × PaceEntry)) (eddy : EddyStats)
    (d : EnvDraws) : EnvData :=
  let dates := paceData.map Prod.fst
  let date := if dates.contains paceDate then paceDate
    else pyMinKey (fun x => |x - paceDate|) (dates.headD paceDate) dates.tail
  let entry := ((paceData.find? (fun p => p.1 = date)).map Prod.snd).getD
    ⟨none, none, none⟩
  envFromEntry lat lon entry eddy d

theorem envFromEntry_bounds (lat lon : ℝ) (entry : PaceEntry)
    (eddy : EddyStats) (d : EnvDraws) :
    (0.05 ≤ (envFromEntry lat lon entry eddy d).chlor_a ∧
      (envFromEntry lat lon entry eddy d).chlor_a ≤ 5.0) ∧
    (5 ≤ (envFromEntry lat lon entry eddy d).carbon_phyto ∧
      (envFromEntry lat lon entry eddy d).carbon_phyto ≤ 300) ∧
    (20 ≤ (envFromEntry lat lon entry eddy d).poc ∧
      (envFromEntry lat lon entry eddy d).poc ≤ 500) ∧
    (10 ≤ (envFromEntry lat lon entry eddy d).sst ∧
      (envFromEntry lat lon entry eddy d).sst ≤ 32) ∧
    (-6000 ≤ (envFromEntry lat lon entry eddy d).water_depth ∧
      (envFromEntry lat lon entry eddy d).water_depth ≤ -10) ∧
    (0 ≤ (envFromEntry lat lon entry eddy d).eddy_speed ∧
      (envFromEntry lat lon entry eddy d).eddy_speed ≤ 2.0) := by
  unfold envFromEntry
  refine ⟨?_, ?_, ?_, ?_, ?_, ?_⟩ <;>
    exact clip_mem_Icc _ _ _ (by norm_num)

/-- C8: every environmental sample returned by the fusion lookup has each
covariate inside its documented physically plausible range — for every
latitude, longitude, requested date, composite table (including absent
variables, i.e. the purely synthetic fallback), SWOT statistics and
random draws. -/
theorem C8_environmental_bounds (lat lon : ℝ) (paceDate : ℤ)
    (paceData : List (ℤ × PaceEntry)) (eddy : EddyStats) (d : EnvDraws) :
    (0.05 ≤ (extract_pace_environmental_data lat lon paceDate paceData eddy d).chlor_a ∧
      (extract_pace_environmental_data lat lon paceDate paceData eddy d).chlor_a ≤ 5.0) ∧
    (5 ≤ (extract_pace_environmental_data lat lon paceDate paceData eddy d).carbon_phyto ∧
      (extract_pace_environmental_data lat lon paceDate paceData eddy d).carbon_phyto ≤ 300) ∧
    (20 ≤ (extract_pace_environmental_data lat lon paceDate paceData eddy d).poc ∧
      (extract_pace_environmental_data lat lon paceDate paceData eddy d).poc ≤ 500) ∧
    (10 ≤ (extract_pace_environmental_data lat lon paceDate paceData eddy d).sst ∧
      (extract_pace_environmental_data lat lon paceDate paceData eddy d).sst ≤ 32) ∧
    (-6000 ≤ (extract_pace_environmental_data lat lon paceDate paceData eddy d).water_depth ∧
      (extract_pace_environmental_data lat lon paceDate paceData eddy d).water_depth ≤ -10) ∧
    (0 ≤ (extract_pace_environmental_data lat lon paceDate paceData eddy d).eddy_speed ∧
      (extract_pace_environmental_data lat lon paceDate paceData eddy d).eddy_speed ≤ 2.0) := by
  unfold extract_pace_environmental_data
  exact envFromEntry_bounds lat lon _ eddy d

/-! ## Date mapping (`map_shark_to_pace_dates`) and the feature loop -/

/-- One row of the sampled shark CSV before date mapping. -/
structure SharkRow where
  id : ℕ
  datetime : ℕ
  latitude : ℚ
  longitude : ℚ
deriving DecidableEq

/-- A row after `map_shark_to_pace_dates`: `datetime` rewritten to a PACE
date, the raw timestamp kept in `original_datetime`. -/
structure MappedRow where
  id : ℕ
  datetime : ℕ
  pace_date : ℕ
  original_datetime : ℕ
  latitude : ℚ
  longitude : ℚ
deriving DecidableEq

/-- Loop body of `map_shark_to_pace_dates`, carrying the running row
position `i`: row `i` gets `pace_dates[i % len(pace_dates)]` as its
`datetime` and `pace_date`. -/
def mapRowsFrom (paceDates : List ℕ) : ℕ → List SharkRow → List MappedRow
  | _, [] => []
  | i, r :: rs =>
    { id := r.id
      datetime := paceDates.getD (i % paceDates.length) 0
      pace_date := paceDates.getD (i % paceDates.length) 0
      original_datetime := r.datetime
      latitude := r.latitude
      longitude := r.longitude } :: mapRowsFrom paceDates (i + 1) rs

/-- Embedding of `map_shark_to_pace_dates` (`pace_dates` is the sorted
list of composite dates): cycle through the PACE dates by row position,
overwriting each row's `datetime`. -/
def map_shark_to_pace_dates (df : List SharkRow) (paceDates : List ℕ) :
    List MappedRow :=
  mapRowsFrom paceDates 0 df

theorem mapRowsFrom_datetimes (paceDates : List ℕ) :
    ∀ (rs : List SharkRow) (i : ℕ),
    (mapRowsFrom paceDates i rs).map MappedRow.datetime
      = (List.range rs.length).map
          (fun j => paceDates.getD ((i + j) % paceDates.length) 0) := by
  intro rs
  induction rs with
  | nil => intro i; simp [mapRowsFrom]
  | cons r rs ih =>
    intro i
    simp only [mapRowsFrom, List.map_cons, List.length_cons,
      List.range_succ_eq_map, List.map_map]
    refine congrArg₂ List.cons (by simp) ?_
    rw [ih (i + 1)]
    refine List.map_congr_left ?_
    intro j hj
    simp only [Function.comp_apply]
    congr 2
    omega

/-- C4 (amended): the date-mapping stage rewrites row `i`'s consumed
`datetime` to `pace_dates[i % len(pace_dates)]` (keeping the raw
timestamp only in `original_datetime` and preserving the row count), so
the timestamp sequence the movement-feature computation consumes is the
cyclic PACE-date sequence, which is not strictly increasing in general;
non-positive consecutive deltas are possible and are handled by the
speed guard. -/
theorem C4_date_mapping (df : List SharkRow) (paceDates : List ℕ) :
    (map_shark_to_pace_dates df paceDates).map MappedRow.datetime
      = (List.range df.length).map
          (fun j => paceDates.getD (j % paceDates.length) 0) ∧
    (map_shark_to_pace_dates df paceDates).map MappedRow.original_datetime
      = df.map SharkRow.datetime ∧
    (map_shark_to_pace_dates df paceDates).length = df.length := by
  refine ⟨?_, ?_, ?_⟩
  · simpa using mapRowsFrom_datetimes paceDates df 0
  · unfold map_shark_to_pace_dates
    generalize (0 : ℕ) = i
    induction df generalizing i with
    | nil => simp [mapRowsFrom]
    | cons r rs ih => simp [mapRowsFrom, ih]
  · unfold map_shark_to_pace_dates
    generalize (0 : ℕ) = i
    induction df generalizing i with
    | nil => simp [mapRowsFrom]
    | cons r rs ih => simp [mapRowsFrom, ih]

/-- A strictly increasing three-ping track for one shark. -/
def sharkTrackEx : List SharkRow :=
  [{ id := 1, datetime := 10, latitude := 0, longitude := 0 },
   { id := 1, datetime := 20, latitude := 1, longitude := 1 },
   { id := 1, datetime := 30, latitude := 2, longitude := 2 }]

/-- Two PACE composite dates (sorted ascending). -/
def paceDatesEx : List ℕ := [100, 200]

/-- C4 counterexample: the input track's timestamps are strictly
increasing, but after `map_shark_to_pace_dates` the datetime sequence the
feature loop consumes is `[100, 200, 100]` — not strictly increasing, so
the stage does not preserve the invariant and a consumed consecutive
delta is non-positive. -/
theorem C4_date_mapping_counterexample :
    List.Chain' (· < ·) (sharkTrackEx.map SharkRow.datetime) ∧
    (map_shark_to_pace_dates sharkTrackEx paceDatesEx).map MappedRow.datetime
      = [100, 200, 100] ∧
    ¬ List.Chain' (· < ·)
      ((map_shark_to_pace_dates sharkTrackEx paceDatesEx).map MappedRow.datetime) := by
  have h1 : sharkTrackEx.map SharkRow.datetime = [10, 20, 30] := rfl
  have h2 : (map_shark_to_pace_dates sharkTrackEx paceDatesEx).map MappedRow.datetime
      = [100, 200, 100] := rfl
  refine ⟨?_, h2, ?_⟩
  · rw [h1]
    simp [List.chain'_cons]
  · rw [h2]
    simp [List.chain'_cons]

/-! ## Resampler (`discretize_to_time_steps`) -/

/-- One resampled observation (a row of the discretized table built in
`discretize_to_time_steps`). -/
structure DiscRow where
  shark_id : ℕ
  datetime : ℕ
  time_step : ℕ
  latitude : ℚ
  longitude : ℚ
  step_length : ℝ
  turning_angle : ℝ
  speed_km_day : ℝ
  chlor_a : ℚ
  carbon_phyto : ℚ
  poc : ℚ
  sst : ℚ
  water_depth : ℚ
  eddy_speed : ℚ

/-- `np.arctan2 y x`. -/
noncomputable def arctan2 (y x : ℝ) : ℝ :=
  if 0 < x then Real.arctan (y / x)
  else if x < 0 ∧ 0 ≤ y then Real.arctan (y / x) + Real.pi
  else if x < 0 ∧ y < 0 then Real.arctan (y / x) - Real.pi
  else if x = 0 ∧ 0 < y then Real.pi / 2
  else if x = 0 ∧ y < 0 then -(Real.pi / 2)
  else 0

/-- Stable insert by `datetime` (pandas `sort_values("datetime")`;
pandas' quicksort is unstable, but ties only reorder equal timestamps,
which no claimed property depends on). -/
def insertByTime (r : CRow ℚ) : List (CRow ℚ) → List (CRow ℚ)
  | [] => [r]
  | x :: xs => if r.datetime ≤ x.datetime then r :: x :: xs else x :: insertByTime r xs

/-- Sort a track by `datetime`. -/
def sortByTime : List (CRow ℚ) → List (CRow ℚ)
  | [] => []
  | r :: rs => insertByTime r (sortByTime rs)

/-- Grid origin: floor the first timestamp (in minutes) to the hour, then
floor the hour-of-day to a multiple of `stepH` hours — exactly the
`replace(minute=0, second=0, microsecond=0)` plus conditional
`replace(hour=(hour // step) * step)` of the source. -/
def gridStart (stepH t : ℕ) : ℕ :=
  let day := t / 1440
  let h := (t % 1440) / 60
  if h % stepH ≠ 0 then day * 1440 + ((h / stepH) * stepH) * 60
  else day * 1440 + h * 60

/-- The grid timestamps: `start, start + step, ...` while `≤ endT`
(`stepM` in minutes). -/
def gridTimes (stepM startT endT : ℕ) : List ℕ :=
  if 0 < stepM ∧ startT ≤ endT then
    (List.range ((endT - startT) / stepM + 1)).map (fun k => startT + stepM * k)
  else []

/-- Accumulator loop of `abs(shark_data["datetime"] - time_step).idxmin()`:
first position attaining the minimal absolute difference. -/
def idxminAbsGo (g : ℕ) : ℕ → ℕ → ℤ → List ℕ → ℕ
  | _, bi, _, [] => bi
  | pos, bi, bv, t :: rest =>
    if |(t : ℤ) - (g : ℤ)| < bv then idxminAbsGo g (pos + 1) pos |(t : ℤ) - (g : ℤ)| rest
    else idxminAbsGo g (pos + 1) bi bv rest

/-- `abs(shark_data["datetime"] - time_step).idxmin()` over the track's
timestamp column. -/
def idxminAbs (g : ℕ) : List ℕ → ℕ
  | [] => 0
  | t :: ts => idxminAbsGo g 1 0 |(t : ℤ) - (g : ℤ)| ts

/-- The minimal absolute time difference itself (minutes). -/
def minAbsDist (g : ℕ) (ts : List ℕ) : ℤ :=
  |(ts.getD (idxminAbs g ts) 0 : ℤ) - (g : ℤ)|

/-- `time_diffs.loc[closest_idx] <= timedelta(hours=3)`. -/
def acceptGrid (ts : List ℕ) (g : ℕ) : Bool := minAbsDist g ts ≤ 180

/-- Placeholder row for the (never reached) out-of-range list access. -/
def defaultCRow : CRow ℚ :=
  { shark_id := 0, latitude := 0, longitude := 0, datetime := 0,
    pace_date := 0, original_datetime := 0, step_length := 0,
    turning_angle := 0, speed_km_day := 0, chlor_a := 0, carbon_phyto := 0,
    poc := 0, sst := 0, water_depth := 0, eddy_speed := 0,
    speed_category := "", data_quality := "" }

/-- The observation record appended for an accepted grid point `g` with
accepted predecessor: haversine step from the previous grid point's
matched ping, speed over the fixed `stepH`-hour interval capped at
`74 * 24`, and a turning angle from the previously emitted row (0 for the
first emitted row of the track). -/
noncomputable def mkDiscRow (stepH sid i g : ℕ) (obs prevObs : CRow ℚ)
    (lastRow : Option DiscRow) : DiscRow :=
  let step := haversine_km (prevObs.latitude : ℝ) (prevObs.longitude : ℝ)
    (obs.latitude : ℝ) (obs.longitude : ℝ)
  let speed := min (step / (stepH : ℝ) * 24) (74 * 24)
  let turning : ℝ :=
    match lastRow with
    | some pr =>
      let bearing1 := arctan2 ((prevObs.latitude : ℝ) - (pr.latitude : ℝ))
        ((prevObs.longitude : ℝ) - (pr.longitude : ℝ))
      let bearing2 := arctan2 ((obs.latitude : ℝ) - (prevObs.latitude : ℝ))
        ((obs.longitude : ℝ) - (prevObs.longitude : ℝ))
      arctan2 (Real.sin (bearing2 - bearing1)) (Real.cos (bearing2 - bearing1))
    | none => 0
  { shark_id := sid, datetime := g, time_step := i,
    latitude := obs.latitude, longitude := obs.longitude,
    step_length := step, turning_angle := turning, speed_km_day := speed,
    chlor_a := obs.chlor_a, carbon_phyto := obs.carbon_phyto, poc := obs.poc,
    sst := obs.sst, water_depth := obs.water_depth, eddy_speed := obs.eddy_speed }

theorem mkDiscRow_datetime (stepH sid i g : ℕ) (obs prevObs : CRow ℚ)
    (lastRow : Option DiscRow) :
    (mkDiscRow stepH sid i g obs prevObs lastRow).datetime = g := rfl

/-- Grid loop of `discretize_to_time_steps` for one track: for each grid
point (index `i`, previous grid point `prevG`), append one observation
exactly when the grid point is matched within tolerance, `i > 0`, and the
previous grid point was also matched; otherwise append nothing. -/
noncomputable def discGo (stepH sid : ℕ) (track : List (CRow ℚ)) (ts : List ℕ) :
    List ℕ → ℕ → Option ℕ → List DiscRow → List DiscRow
  | [], _, _, acc => acc
  | g :: gs, i, prevG, acc =>
    let acc' :=
      if acceptGrid ts g then
        match prevG with
        | some pg =>
          if acceptGrid ts pg then
            acc ++ [mkDiscRow stepH sid i g (track.getD (idxminAbs g ts) defaultCRow)
              (track.getD (idxminAbs pg ts) defaultCRow) acc.getLast?]
          else acc
        | none => acc
      else acc
    discGo stepH sid track ts gs (i + 1) (some g) acc'

/-- Per-track body of `discretize_to_time_steps` (`tstep` expressed as
`stepH` hours, 6 for the reference `tstep = 0.25`): sort the track by
timestamp, skip it when it has fewer than 2 pings, and run the grid loop
from the floored origin to the last timestamp. -/
noncomputable def discretizeTrack (stepH sid : ℕ) (rows : List (CRow ℚ)) :
    List DiscRow :=
  let track := sortByTime rows
  if track.length < 2 then []
  else
    let ts := track.map (fun r => r.datetime)
    discGo stepH sid track ts
      (gridTimes (stepH * 60) (gridStart stepH (ts.headD 0)) (ts.getLastD 0)) 0 none []

/-- First-occurrence-ordered distinct elements (`Series.unique()`). -/
def firstUniques {β : Type} [DecidableEq β] : List β → List β
  | [] => []
  | x :: xs => x :: firstUniques (xs.filter (fun y => y != x))
termination_by l => l.length
decreasing_by
  simp only [List.length_cons]
  exact Nat.lt_succ_of_le (List.length_filter_le _ _)

/-- Embedding of `discretize_to_time_steps`: concatenate the per-shark
results in first-appearance order of `shark_id`.  (The source's fallback
`return df` when the result is empty returns a table of the original
shape and is outside this per-claim model.) -/
noncomputable def discretize_to_time_steps (stepH : ℕ) (df : List (CRow ℚ)) :
    List DiscRow :=
  ((firstUniques (df.map (fun r => r.shark_id))).map
    (fun sid => discretizeTrack stepH sid (df.filter (fun r => r.shark_id == sid)))).flatten

/-- The emission rule, by itself: a grid point `g` emits exactly when its
nearest ping is within tolerance and the preceding grid point exists and
its nearest ping is also within tolerance. -/
def emitGo (ts : List ℕ) : List ℕ → Option ℕ → List ℕ
  | [], _ => []
  | g :: gs, prevG =>
    (if acceptGrid ts g then
      match prevG with
      | some pg => if acceptGrid ts pg then [g] else []
      | none => []
    else []) ++ emitGo ts gs (some g)

/-- The grid timestamps a track actually emits observations at. -/
def emittedTimes (stepH : ℕ) (rows : List (CRow ℚ)) : List ℕ :=
  let track := sortByTime rows
  if track.length < 2 then []
  else
    let ts := track.map (fun r => r.datetime)
    emitGo ts (gridTimes (stepH * 60) (gridStart stepH (ts.headD 0)) (ts.getLastD 0)) none

theorem discGo_datetimes (stepH sid : ℕ) (track : List (CRow ℚ)) (ts : List ℕ) :
    ∀ (gs : List ℕ) (i : ℕ) (prevG : Option ℕ) (acc : List DiscRow),
    (discGo stepH sid track ts gs i prevG acc).map DiscRow.datetime
      = acc.map DiscRow.datetime ++ emitGo ts gs prevG := by
  intro gs
  induction gs with
  | nil =>
    intro i prevG acc
    simp [discGo, emitGo]
  | cons g gs ih =>
    intro i prevG acc
    simp only [discGo, emitGo]
    by_cases hA : acceptGrid ts g = true
    · cases prevG with
      | none => simp [hA, ih]
      | some pg =>
        by_cases hP : acceptGrid ts pg = true
        · simp [hA, hP, ih, mkDiscRow_datetime, List.map_append]
        · simp [hA, hP, ih]
    · simp [hA, ih]

theorem discretizeTrack_datetimes (stepH sid : ℕ) (rows : List (CRow ℚ)) :
    (discretizeTrack stepH sid rows).map DiscRow.datetime
      = emittedTimes stepH rows := by
  simp only [discretizeTrack, emittedTimes]
  split
  · simp
  · simpa using discGo_datetimes stepH sid (sortByTime rows)
      ((sortByTime rows).map (fun r => r.datetime))
      (gridTimes (stepH * 60)
        (gridStart stepH (((sortByTime rows).map (fun r => r.datetime)).headD 0))
        (((sortByTime rows).map (fun r => r.datetime)).getLastD 0)) 0 none []

/-- C1 (amended): for every track, the resampler emits observations at
exactly the grid timestamps computed by the emission rule `emittedTimes`:
one observation per grid point whose nearest raw ping is within 3 hours
AND which has a preceding grid point whose nearest ping is also within
3 hours; the first grid point of a track, and any grid point following an
unmatched one, emit nothing, and a grid point whose nearest ping is
farther than 3 hours emits nothing. -/
theorem C1_resampler_emission (sid : ℕ) (rows : List (CRow ℚ)) :
    (discretizeTrack 6 sid rows).map DiscRow.datetime = emittedTimes 6 rows :=
  discretizeTrack_datetimes 6 sid rows

/-- A raw ping at minute `t` (all feature columns neutral). -/
def pingAt (t : ℕ) : CRow ℚ := { defaultCRow with datetime := t }

/-- The claim's own example track: pings at t = 0 h and t = 7 h. -/
def twoPingTrack : List (CRow ℚ) := [pingAt 0, pingAt 420]

/-- C1 counterexample: on the track with pings at t = 0 h and t = 7 h
under the 6-hour grid, the grid has points at t = 0 h and t = 6 h, the
t = 0 h grid point is matched within tolerance (distance 0), yet the
resampler emits only the t = 6 h observation — the t = 0 h grid point
yields none, contradicting the claim that both yield observations. -/
theorem C1_resampler_emission_counterexample :
    (discretizeTrack 6 1 twoPingTrack).map DiscRow.datetime = [360] ∧
    (0 : ℕ) ∉ (discretizeTrack 6 1 twoPingTrack).map DiscRow.datetime ∧
    gridTimes (6 * 60) (gridStart 6 0) 420 = [0, 360] ∧
    acceptGrid [0, 420] 0 = true := by
  have h := discretizeTrack_datetimes 6 1 twoPingTrack
  have he : emittedTimes 6 twoPingTrack = [360] := by decide
  rw [h, he]
  refine ⟨rfl, by simp, by decide, by decide⟩

/-! ## Hotspot aggregation (`create_foraging_summary_csv`) -/

/-- One decoded observation as consumed by the foraging-summary export
(the columns of `df_enhanced` the aggregation reads). -/
structure Obs (α : Type) where
  shark_id : ℕ
  latitude : α
  longitude : α
  behavior : String
  state_uncertainty : α
  speed_km_day : α
  chlor_a : α
  carbon_phyto : α
  poc : α
  sst : α
  water_depth : α

/-- Spatial bin key: `(lat / 0.1).round()` and `(lon / 0.1).round()`
(the code stores `key * 0.1` as the group label; the integer pair is the
same partition into 0.1°×0.1° cells). -/
def binKey [FloorRing α] (o : Obs α) : ℤ × ℤ :=
  (roundHalfEven (o.latitude / (1 / 10)), roundHalfEven (o.longitude / (1 / 10)))

/-- Add one observation to the running association list of bins
(pandas `groupby` keeps intra-group rows in input order). -/
def insertObs [FloorRing α] (o : Obs α) :
    List ((ℤ × ℤ) × List (Obs α)) → List ((ℤ × ℤ) × List (Obs α))
  | [] => [(binKey o, [o])]
  | (k, ms) :: rest =>
    if binKey o = k then (k, ms ++ [o]) :: rest
    else (k, ms) :: insertObs o rest

/-- Group the foraging observations by bin key. -/
def groupPairs [FloorRing α] (obs : List (Obs α)) :
    List ((ℤ × ℤ) × List (Obs α)) :=
  obs.foldl (fun acc o => insertObs o acc) []

/-- One row of the foraging-hotspot summary CSV. -/
structure HotspotBin (α : Type) where
  latitude : α
  longitude : α
  unique_sharks : ℕ
  foraging_observations : ℕ
  avg_uncertainty : α
  avg_speed_km_day : α
  avg_chlor_a : α
  avg_carbon_phyto : α
  avg_poc : α
  avg_sst : α
  avg_water_depth : α
  avg_confidence : α
  foraging_intensity : α
  shark_diversity : α

/-- Aggregate one populated bin: `nunique` shark ids, observation count,
per-column means, `avg_confidence = 1 - avg_uncertainty`,
`foraging_intensity = count * avg_confidence`,
`shark_diversity = unique / count`, then the per-column `round` calls of
the source, applied in source order (`foraging_intensity` is computed
from the unrounded confidence and then itself rounded to 2 decimals). -/
def mkBin [FloorRing α] (k : ℤ × ℤ) (ms : List (Obs α)) : HotspotBin α :=
  let n := ms.length
  let uniq := (firstUniques (ms.map (fun o => o.shark_id))).length
  let mUnc := listMean (ms.map (fun o => o.state_uncertainty))
  let conf := 1 - mUnc
  let intensity := (n : α) * conf
  let diversity := (uniq : α) / (n : α)
  { latitude := roundTo 3 ((k.1 : α) * (1 / 10))
    longitude := roundTo 3 ((k.2 : α) * (1 / 10))
    unique_sharks := uniq
    foraging_observations := n
    avg_uncertainty := roundTo 3 mUnc
    avg_speed_km_day := roundTo 2 (listMean (ms.map (fun o => o.speed_km_day)))
    avg_chlor_a := roundTo 4 (listMean (ms.map (fun o => o.chlor_a)))
    avg_carbon_phyto := roundTo 2 (listMean (ms.map (fun o => o.carbon_phyto)))
    avg_poc := roundTo 2 (listMean (ms.map (fun o => o.poc)))
    avg_sst := roundTo 2 (listMean (ms.map (fun o => o.sst)))
    avg_water_depth := roundTo 1 (listMean (ms.map (fun o => o.water_depth)))
    avg_confidence := roundTo 3 conf
    foraging_intensity := roundTo 2 intensity
    shark_diversity := roundTo 3 diversity }

/-- Ascending lexicographic order on bin keys (pandas `groupby` sorts the
group keys). -/
def keyLE {α : Type} (a b : (ℤ × ℤ) × List (Obs α)) : Prop :=
  a.1.1 < b.1.1 ∨ (a.1.1 = b.1.1 ∧ a.1.2 ≤ b.1.2)

instance {α : Type} : DecidableRel (@keyLE α) := fun a b =>
  decidable_of_iff (a.1.1 < b.1.1 ∨ (a.1.1 = b.1.1 ∧ a.1.2 ≤ b.1.2)) Iff.rfl

instance {α : Type} : IsTotal ((ℤ × ℤ) × List (Obs α)) keyLE :=
  ⟨fun a b => by unfold keyLE; omega⟩

instance {α : Type} : IsTrans ((ℤ × ℤ) × List (Obs α)) keyLE :=
  ⟨fun a b c hab hbc => by unfold keyLE at *; omega⟩

/-- Descending order on `foraging_intensity`
(`sort_values("foraging_intensity", ascending=False)`). -/
def intensityGE (a b : HotspotBin α) : Prop :=
  b.foraging_intensity ≤ a.foraging_intensity

instance : DecidableRel (@intensityGE α _) := fun a b =>
  decidable_of_iff (b.foraging_intensity ≤ a.foraging_intensity) Iff.rfl

instance : IsTotal (HotspotBin α) (@intensityGE α _) :=
  ⟨fun a b => le_total b.foraging_intensity a.foraging_intensity⟩

instance : IsTrans (HotspotBin α) (@intensityGE α _) :=
  ⟨fun _ _ _ hab hbc => le_trans hbc hab⟩

/-- Embedding of `create_foraging_summary_csv`: keep the rows with
behavior `Foraging`, group them by 0.1° bin (keys ascending), aggregate
each bin, and sort the bins by descending `foraging_intensity`.
(When there is no foraging row the source returns `None` after a warning;
here the summary is simply the empty list.) -/
def create_foraging_summary [FloorRing α] (obs : List (Obs α)) :
    List (HotspotBin α) :=
  let foraging := obs.filter (fun o => o.behavior == "Foraging")
  let groups := List.insertionSort keyLE (groupPairs foraging)
  List.insertionSort intensityGE (groups.map (fun p => mkBin p.1 p.2))

theorem insertObs_prop {α : Type} [LinearOrderedField α] [FloorRing α]
    (P : Obs α → Prop) (o : Obs α) :
    ∀ (acc : List ((ℤ × ℤ) × List (Obs α))),
    (∀ p ∈ acc, p.2 ≠ [] ∧ ∀ x ∈ p.2, P x) → P o →
    ∀ p ∈ insertObs o acc, p.2 ≠ [] ∧ ∀ x ∈ p.2, P x := by
  intro acc
  induction acc with
  | nil =>
    intro _ ho p hp
    simp only [insertObs, List.mem_singleton] at hp
    subst hp
    exact ⟨by simp, by simpa using ho⟩
  | cons q rest ih =>
    obtain ⟨k, ms⟩ := q
    intro hacc ho p hp
    simp only [insertObs] at hp
    by_cases h : binKey o = k
    · rw [if_pos h] at hp
      rcases List.mem_cons.mp hp with rfl | hrest
      · have hq := hacc (k, ms) (List.mem_cons_self _ _)
        refine ⟨by simp, ?_⟩
        intro x hx
        rcases List.mem_append.mp hx with h1 | h2
        · exact hq.2 x h1
        · simp only [List.mem_singleton] at h2
          subst h2
          exact ho
      · exact hacc p (List.mem_cons_of_mem _ hrest)
    · rw [if_neg h] at hp
      rcases List.mem_cons.mp hp with rfl | hrest
      · exact hacc (k, ms) (List.mem_cons_self _ _)
      · exact ih (fun q hq => hacc q (List.mem_cons_of_mem _ hq)) ho p hrest

theorem groupPairs_prop {α : Type} [LinearOrderedField α] [FloorRing α]
    (P : Obs α → Prop) :
    ∀ (l : List (Obs α)) (acc : List ((ℤ × ℤ) × List (Obs α))),
    (∀ p ∈ acc, p.2 ≠ [] ∧ ∀ x ∈ p.2, P x) → (∀ o ∈ l, P o) →
    ∀ p ∈ l.foldl (fun acc o => insertObs o acc) acc,
      p.2 ≠ [] ∧ ∀ x ∈ p.2, P x := by
  intro l
  induction l with
  | nil => intro acc hacc _ p hp; exact hacc p hp
  | cons o rest ih =>
    intro acc hacc hl p hp
    simp only [List.foldl_cons] at hp
    exact ih (insertObs o acc)
      (insertObs_prop P o acc hacc (hl o (List.mem_cons_self _ _)))
      (fun x hx => hl x (List.mem_cons_of_mem _ hx)) p hp

theorem groupPairs_const_key {α : Type} [LinearOrderedField α] [FloorRing α]
    (k : ℤ × ℤ) :
    ∀ (l ms : List (Obs α)), (∀ o ∈ l, binKey o = k) →
    l.foldl (fun acc o => insertObs o acc) [(k, ms)] = [(k, ms ++ l)] := by
  intro l
  induction l with
  | nil => intro ms _; simp
  | cons o rest ih =>
    intro ms h
    have hk : binKey o = k := h o (List.mem_cons_self _ _)
    simp only [List.foldl_cons]
    have h1 : insertObs o [(k, ms)] = [(k, ms ++ [o])] := by
      simp [insertObs, hk]
    rw [h1, ih (ms ++ [o]) (fun x hx => h x (List.mem_cons_of_mem _ hx))]
    simp

theorem groupPairs_single_cell {α : Type} [LinearOrderedField α] [FloorRing α]
    (k : ℤ × ℤ) (l : List (Obs α)) (hne : l ≠ [])
    (h : ∀ o ∈ l, binKey o = k) : groupPairs l = [(k, l)] := by
  cases l with
  | nil => exact absurd rfl hne
  | cons o rest =>
    unfold groupPairs
    simp only [List.foldl_cons]
    have h1 : insertObs o ([] : List ((ℤ × ℤ) × List (Obs α))) = [(k, [o])] := by
      simp [insertObs, h o (List.mem_cons_self _ _)]
    rw [h1, groupPairs_const_key k rest [o]
      (fun x hx => h x (List.mem_cons_of_mem _ hx))]
    simp

/-- C9 (amended): every populated hotspot bin aggregates a nonempty set of
foraging observations from the input — its `foraging_observations` is
that set's size, its `unique_sharks` the number of distinct subject ids in
it, and its exported `foraging_intensity` equals
`count * (1 - mean uncertainty)` rounded to 2 decimal places (the
rounding the source applies before sorting); the output is sorted
descending by that rounded intensity; and when all foraging observations
fall in a single 0.1° cell the summary is exactly the one bin aggregating
all of them.  The aggregation is a pure function of its input — no
randomness. -/
theorem C9_hotspot_aggregation (obs : List (Obs ℚ)) (k : ℤ × ℤ) :
    (∀ b ∈ create_foraging_summary obs, ∃ ms : List (Obs ℚ),
        ms ≠ [] ∧ (∀ o ∈ ms, o ∈ obs ∧ o.behavior = "Foraging") ∧
        b.foraging_observations = ms.length ∧
        b.unique_sharks = (firstUniques (ms.map (fun o => o.shark_id))).length ∧
        b.foraging_intensity
          = roundTo 2 ((ms.length : ℚ) *
              (1 - listMean (ms.map (fun o => o.state_uncertainty))))) ∧
    List.Sorted intensityGE (create_foraging_summary obs) ∧
    ((obs.filter (fun o => o.behavior == "Foraging")) ≠ [] →
      (∀ o ∈ obs.filter (fun o => o.behavior == "Foraging"), binKey o = k) →
      create_foraging_summary obs
        = [mkBin k (obs.filter (fun o => o.behavior == "Foraging"))]) := by
  have hcs : create_foraging_summary obs
      = List.insertionSort intensityGE
          ((List.insertionSort keyLE
            (groupPairs (obs.filter (fun o => o.behavior == "Foraging")))).map
              (fun p => mkBin p.1 p.2)) := rfl
  refine ⟨?_, ?_, ?_⟩
  · intro b hb
    rw [hcs] at hb
    have hb1 := (List.perm_insertionSort intensityGE _).mem_iff.mp hb
    obtain ⟨p, hp, rfl⟩ := List.mem_map.mp hb1
    have hp1 : p ∈ groupPairs (obs.filter (fun o => o.behavior == "Foraging")) :=
      (List.perm_insertionSort keyLE _).mem_iff.mp hp
    have hprop := groupPairs_prop (fun o => o ∈ obs ∧ o.behavior = "Foraging")
      (obs.filter (fun o => o.behavior == "Foraging")) [] (by simp)
      (fun o ho => ⟨(List.mem_filter.mp ho).1,
        by simpa using (List.mem_filter.mp ho).2⟩) p hp1
    exact ⟨p.2, hprop.1, hprop.2, rfl, rfl, rfl⟩
  · rw [hcs]
    exact List.sorted_insertionSort intensityGE _
  · intro hne hkey
    rw [hcs, groupPairs_single_cell k _ hne hkey]
    rfl

/-- A single foraging observation sitting in the cell keyed `(250, -800)`. -/
def singleForagingObs : Obs ℚ :=
  { shark_id := 7, latitude := 25, longitude := -80, behavior := "Foraging",
    state_uncertainty := 1 / 10, speed_km_day := 10, chlor_a := 1,
    carbon_phyto := 40, poc := 100, sst := 25, water_depth := -1000 }

/-- C9 witness: one foraging observation yields exactly one bin, the
aggregate of that observation's cell. -/
theorem C9_hotspot_aggregation_witness :
    create_foraging_summary [singleForagingObs]
      = [mkBin (250, -800) [singleForagingObs]] := by
  have hfil : ([singleForagingObs] : List (Obs ℚ)).filter
      (fun o => o.behavior == "Foraging") = [singleForagingObs] := rfl
  have hkey : binKey singleForagingObs = (250, -800) := by
    simp only [binKey, singleForagingObs]
    norm_num [roundHalfEven]
  have h := (C9_hotspot_aggregation [singleForagingObs] (250, -800)).2.2
  rw [hfil] at h
  exact h (by simp)
    (by intro o ho; simp only [List.mem_singleton] at ho; subst ho; exact hkey)

/-- A single foraging observation with uncertainty 0.123. -/
def cexObs : Obs ℚ :=
  { shark_id := 7, latitude := 25, longitude := -80, behavior := "Foraging",
    state_uncertainty := 123 / 1000, speed_km_day := 10, chlor_a := 1,
    carbon_phyto := 40, poc := 100, sst := 25, water_depth := -1000 }

/-- C9 counterexample: for one foraging observation with uncertainty
0.123, the exported bin's `foraging_intensity` is 0.88 (the product
rounded to 2 decimals), while `observation_count * (1 - mean uncertainty)`
is 0.877 — the claimed exact equality fails. -/
theorem C9_hotspot_counterexample :
    (create_foraging_summary [cexObs]).map (fun b => b.foraging_intensity)
      = [88 / 100] ∧
    (([cexObs].length : ℚ) *
        (1 - listMean ([cexObs].map (fun o => o.state_uncertainty))))
      = 877 / 1000 ∧
    (88 / 100 : ℚ) ≠ 877 / 1000 := by
  have hc : create_foraging_summary [cexObs]
      = [mkBin (binKey cexObs) [cexObs]] := rfl
  refine ⟨?_, by norm_num [listMean, cexObs], by norm_num⟩
  rw [hc]
  show [(mkBin (binKey cexObs) [cexObs]).foraging_intensity] = [88 / 100]
  norm_num [mkBin, listMean, roundTo, roundHalfEven, cexObs]

/-! ## Full pipeline determinism (`enhanced_train_hmm` and downstream) -/

/-- Conversion used by the `enhanced_train_hmm` fallback: when
discretization yields no rows, the constrained table itself feeds the
model (only the columns consumed downstream are modelled; `time_step`
does not exist there and is neutral). -/
noncomputable def crowToDiscRow (c : CRow ℚ) : DiscRow :=
  { shark_id := c.shark_id, datetime := c.datetime, time_step := 0,
    latitude := c.latitude, longitude := c.longitude,
    step_length := (c.step_length : ℝ), turning_angle := (c.turning_angle : ℝ),
    speed_km_day := (c.speed_km_day : ℝ), chlor_a := c.chlor_a,
    carbon_phyto := c.carbon_phyto, poc := c.poc, sst := c.sst,
    water_depth := c.water_depth, eddy_speed := c.eddy_speed }

/-- The thinning-like resampling of `bayesian_hmm_mcmc`: for each
observation, with the first draw below `1/thin` the hard state is redrawn
from the posterior (second draw below `p0` gives state 0, else state 1),
otherwise the arg-max state is kept.  The pseudo-random draws are the
explicit `rng` stream — one `(uniform, uniform)` pair per observation. -/
noncomputable def applyThinning (thin : ℕ) (rng : List (ℝ × ℝ))
    (states : List ℕ) (probs : List (ℝ × ℝ)) : List ℕ :=
  (states.zip (probs.zip rng)).map (fun sp =>
    if sp.2.2.1 < 1 / (thin : ℝ) then (if sp.2.2.2 < sp.2.1.1 then 0 else 1)
    else sp.1)

/-- One decoded observation of the detailed output (a row of
`df_enhanced`: the feature row plus `predicted_state`, the two posterior
probabilities, `state_uncertainty` and the behavior label). -/
structure StateAssignment where
  row : DiscRow
  predicted_state : ℕ
  state_probability_0 : ℝ
  state_probability_1 : ℝ
  uncertainty : ℝ
  behavior : String

/-- View of a decoded observation as a summary-input row. -/
noncomputable def saToObs (a : StateAssignment) : Obs ℝ :=
  { shark_id := a.row.shark_id, latitude := (a.row.latitude : ℝ),
    longitude := (a.row.longitude : ℝ), behavior := a.behavior,
    state_uncertainty := a.uncertainty, speed_km_day := a.row.speed_km_day,
    chlor_a := (a.row.chlor_a : ℝ), carbon_phyto := (a.row.carbon_phyto : ℝ),
    poc := (a.row.poc : ℝ), sst := (a.row.sst : ℝ),
    water_depth := (a.row.water_depth : ℝ) }

/-- The composed batch pipeline, with every consumed pseudo-random draw
threaded through the explicit `rng` stream and the (fixed-seed,
deterministic) mixture fit abstracted as the function `fit` from the
model-input table to its predicted states and posterior rows:
constraint filter → resampler (with the `enhanced_train_hmm` fallback to
the constrained table when discretization is empty) → thinning-like state
resampling (`thin = 10`) → uncertainty decode → mean-speed behavior
labeling → foraging hotspot aggregation. -/
noncomputable def run_pipeline
    (fit : List DiscRow → List ℕ × List (ℝ × ℝ))
    (df : List (FRow ℚ)) (rng : List (ℝ × ℝ)) :
    List StateAssignment × List (HotspotBin ℝ) :=
  let dfc := apply_smart_biological_constraints true df
  let dfd := discretize_to_time_steps 6 dfc
  let dfFinal := if dfd.length = 0 then dfc.map crowToDiscRow else dfd
  let states0 := (fit dfFinal).1
  let probs := (fit dfFinal).2
  let states := if 1 < 10 then applyThinning 10 rng states0 probs else states0
  let uncs := probs.map (fun p => state_uncertainty p.1 p.2)
  let sas0 := (dfFinal.zip ((states.zip probs).zip uncs)).map (fun q =>
    { row := q.1, predicted_state := q.2.1.1,
      state_probability_0 := q.2.1.2.1, state_probability_1 := q.2.1.2.2,
      uncertainty := q.2.2, behavior := "" : StateAssignment })
  let bmap := behavior_map (sas0.map (fun a => (a.predicted_state, a.row.speed_km_day)))
  let sas := sas0.map (fun a => { a with behavior := bmap a.predicted_state })
  (sas, create_foraging_summary (sas.map saToObs))

/-- C3: two runs of the full pipeline on identical input data with the
same pseudo-random stream (the model of a fixed top-level seed: numpy's
global generator is deterministic given its seed, and the mixture fit is
itself seeded with the fixed `random_state = 42`, here the fixed function
`fit`) produce identical state assignments — predicted state, posterior
probabilities, uncertainty, behavior label — and identical hotspot-bin
rankings. -/
theorem C3_pipeline_determinism
    (fit : List DiscRow → List ℕ × List (ℝ × ℝ))
    (df₁ df₂ : List (FRow ℚ)) (rng₁ rng₂ : List (ℝ × ℝ))
    (hdf : df₁ = df₂) (hrng : rng₁ = rng₂) :
    (run_pipeline fit df₁ rng₁).1 = (run_pipeline fit df₂ rng₂).1 ∧
    (run_pipeline fit df₁ rng₁).2 = (run_pipeline fit df₂ rng₂).2 := by
  subst hdf
  subst hrng
  exact ⟨rfl, rfl⟩

/-- A fixed stand-in for the seeded mixture fit: state 0 with posterior
`(1, 0)` for every observation. -/
noncomputable def constFit (rows : List DiscRow) : List ℕ × List (ℝ × ℝ) :=
  (rows.map (fun _ => 0), rows.map (fun _ => (1, 0)))

/-- C3 witness: a concrete double run on the same one-row input and the
same stream yields identical assignments and identical hotspot rankings. -/
theorem C3_pipeline_determinism_witness :
    (run_pipeline constFit [speed3000Row] [(1, 0)]).1
      = (run_pipeline constFit [speed3000Row] [(1, 0)]).1 ∧
    (run_pipeline constFit [speed3000Row] [(1, 0)]).2
      = (run_pipeline constFit [speed3000Row] [(1, 0)]).2 :=
  C3_pipeline_determinism constFit [speed3000Row] [speed3000Row]
    [(1, 0)] [(1, 0)] rfl rfl
